import Mathlib

/-!
Verification development for the MeetingMindAI live-transcription core.

The definitions below are a shallow embedding of
`src/core/live_transcription.py` (class `LiveTranscriptionService`) and
`src/api/routes/websocket.py` (the `websocket_transcribe` handler and the
`active_sessions` registry).  Machine floats on the Python side are modelled
exactly over `ℚ` (all durations in the code are sums of `n / 16000.0`), wall
clock readings are an explicit `now : ℚ` argument (the several `utcnow()`
calls within one handler step are modelled as one reading), and the Whisper
model is an oracle parameter `Whisper` returning either the recognised text
or an exception.  The `asyncio` control flow of the handler is a strictly
sequential event loop, mirroring the fact that every recognition call is
reached through `await` on the per-message path; the action trace recorded
by the embedding makes that ordering inspectable.
-/

namespace MeetingMind

/-- Index of a character in the standard base64 alphabet, `none` outside it. -/
def b64Char (c : Char) : Option Nat :=
  if 'A' ≤ c ∧ c ≤ 'Z' then some (c.toNat - 65)
  else if 'a' ≤ c ∧ c ≤ 'z' then some (c.toNat - 97 + 26)
  else if '0' ≤ c ∧ c ≤ '9' then some (c.toNat - 48 + 52)
  else if c = '+' then some 62
  else if c = '/' then some 63
  else none

/-- Decode a list of base64 characters (already restricted to the alphabet
plus padding) as quads, with padding allowed only in the final quad. -/
def b64Groups : List Char → Option (List Nat)
  | [] => some []
  | a :: b :: c :: d :: rest => do
    let x ← b64Char a
    let y ← b64Char b
    if c = '=' then
      if d = '=' ∧ rest = [] then pure [x * 4 + y / 16] else none
    else do
      let z ← b64Char c
      if d = '=' then
        if rest = [] then pure [x * 4 + y / 16, (y % 16) * 16 + z / 4] else none
      else do
        let v ← b64Char d
        let bs ← b64Groups rest
        pure ([x * 4 + y / 16, (y % 16) * 16 + z / 4, (z % 4) * 64 + v] ++ bs)
  | _ => none

/-- Model of Python `base64.b64decode` (lax mode, as called by
`process_audio_chunk`): characters outside the alphabet are discarded before
decoding, then the remaining characters must form well-padded quads;
`binascii.Error` is modelled as `none`. -/
def b64decode (s : String) : Option (List Nat) :=
  b64Groups (s.toList.filter (fun c => (b64Char c).isSome || c == '='))

/-- Two little-endian bytes as a signed 16-bit integer. -/
def int16OfBytes (lo hi : Nat) : Int :=
  let u := lo + 256 * hi
  if u < 32768 then (u : Int) else (u : Int) - 65536

/-- Model of `np.frombuffer(audio_bytes, dtype=np.int16).astype(np.float32) / 32768.0`:
little-endian 16-bit pairs normalised into `[-1, 1]`; the `ValueError` raised
on an odd byte count is modelled as `none`. -/
def bytesToSamples : List Nat → Option (List ℚ)
  | [] => some []
  | lo :: hi :: rest =>
    (bytesToSamples rest).map (fun s => ((int16OfBytes lo hi : ℚ) / 32768) :: s)
  | [_] => none

/-- The full decode pipeline at the top of `process_audio_chunk`. -/
def decodeAudio (s : String) : Option (List ℚ) :=
  (b64decode s).bind bytesToSamples

/-- One entry of `self.full_transcript` (see `_transcribe_audio`). -/
structure Fragment where
  text : String
  timestamp : ℚ
  offset : ℚ
  deriving DecidableEq, Repr

/-- The incremental result dict returned by `_transcribe_audio` on success. -/
structure TranscriptOut where
  text : String
  is_final : Bool
  timestamp : ℚ
  confidence : ℚ
  deriving DecidableEq, Repr

/-- The Whisper model as an oracle: the text of `model.transcribe(...)`, or an
exception. -/
abbrev Whisper := List ℚ → Except Unit String

/-- The mutable fields of `LiveTranscriptionService`. -/
structure LiveState where
  session_id : String
  language : String
  meeting_id : Option Nat
  audio_buffer : List (List ℚ)
  buffer_duration : ℚ
  min_buffer_duration : ℚ
  full_transcript : List Fragment
  start_time : ℚ
  deriving DecidableEq, Repr

/-- `LiveTranscriptionService.__init__`. -/
def initState (session_id language : String) (meeting_id : Option Nat) (now : ℚ) :
    LiveState :=
  { session_id := session_id, language := language, meeting_id := meeting_id,
    audio_buffer := [], buffer_duration := 0, min_buffer_duration := 3,
    full_transcript := [], start_time := now }

/-- `collections.deque(maxlen := cap).append`: keep only the `cap` most recent
elements. -/
def dequeAppend (cap : Nat) (buf : List α) (x : α) : List α :=
  let b := buf ++ [x]
  b.drop (b.length - cap)

/-- Sum of the durations of the chunks currently held in the buffer. -/
def sumDur (buf : List (List ℚ)) : ℚ :=
  (buf.map (fun c => (c.length : ℚ) / 16000)).sum

/-- Lines 82–86 of `process_audio_chunk`: deque append plus the running
duration update (the SessionBuffer `append` operation of the spec). -/
def bufferAppend (st : LiveState) (audio_array : List ℚ) : LiveState :=
  { st with
    audio_buffer := dequeAppend 100 st.audio_buffer audio_array,
    buffer_duration := st.buffer_duration + (audio_array.length : ℚ) / 16000 }

/-- The flush condition of line 89 (the SessionBuffer `should_flush` of the
spec). -/
def should_flush (st : LiveState) : Bool :=
  decide (st.buffer_duration ≥ st.min_buffer_duration)

/-- Python `str.strip()` with no argument: drop leading and trailing
whitespace (modelled over the character list so that it is structurally
recursive). -/
def pyStrip (s : String) : String :=
  String.mk
    (((s.toList.dropWhile Char.isWhitespace).reverse.dropWhile
        Char.isWhitespace).reverse)

/-- `_transcribe_audio`: run the model; exceptions are caught and give `None`;
empty (stripped) text gives `None`; otherwise append a fragment with
`offset = now - start_time` and return the incremental result. -/
def transcribe_audio (st : LiveState) (w : Whisper) (now : ℚ) (audio : List ℚ) :
    LiveState × Option TranscriptOut :=
  match w audio with
  | .error _ => (st, none)
  | .ok raw =>
    let text := pyStrip raw
    if text ≠ "" then
      ({ st with full_transcript := st.full_transcript ++
          [{ text := text, timestamp := now, offset := now - st.start_time }] },
       some { text := text, is_final := true, timestamp := now, confidence := 1 })
    else (st, none)

/-- `process_audio_chunk`: decode (all decode exceptions are caught and give
`None` with the state untouched), append to the deque buffer, and when the
running duration reaches the threshold concatenate the held chunks in order,
recognise the block, and clear the buffer.  The third component records the
blocks handed to recognition. -/
def process_audio_chunk (st : LiveState) (w : Whisper) (now : ℚ)
    (audio_data_base64 : String) : LiveState × Option TranscriptOut × List (List ℚ) :=
  match decodeAudio audio_data_base64 with
  | none => (st, none, [])
  | some audio_array =>
    let st1 := bufferAppend st audio_array
    if st1.buffer_duration ≥ st1.min_buffer_duration then
      let audio_full := st1.audio_buffer.flatten
      let p := transcribe_audio st1 w now audio_full
      ({ p.1 with audio_buffer := [], buffer_duration := 0 }, p.2, [audio_full])
    else (st1, none, [])

/-- The dict returned by `finalize`. -/
structure FinalResult where
  full_transcript : String
  segments : List Fragment
  duration : ℚ
  word_count : Nat
  deriving DecidableEq, Repr

/-- Accumulator pass for `pySplit`: collect maximal runs of non-whitespace
characters. -/
def splitWSAux : List Char → List Char → List String
  | [], acc => if acc = [] then [] else [String.mk acc.reverse]
  | c :: cs, acc =>
    if c.isWhitespace then
      if acc = [] then splitWSAux cs []
      else String.mk acc.reverse :: splitWSAux cs []
    else splitWSAux cs (c :: acc)

/-- Python `str.split()` with no argument: the maximal whitespace-separated
tokens, with no empty pieces. -/
def pySplit (s : String) : List String :=
  splitWSAux s.toList []

/-- Python `" ".join`. -/
def spaceJoin (ts : List String) : String :=
  String.intercalate " " ts

/-- `finalize`: recognise the remaining buffer when it is non-empty with
positive running duration (note the buffer is NOT cleared), space-join the
fragment texts, and report `now - start_time` and the whitespace word count.
The third component records the blocks handed to recognition. -/
def finalize (st : LiveState) (w : Whisper) (now : ℚ) :
    LiveState × FinalResult × List (List ℚ) :=
  let p :=
    if st.audio_buffer ≠ [] ∧ st.buffer_duration > 0 then
      ((transcribe_audio st w now st.audio_buffer.flatten).1, [st.audio_buffer.flatten])
    else (st, ([] : List (List ℚ)))
  let full_text := spaceJoin (p.1.full_transcript.map Fragment.text)
  (p.1,
   { full_transcript := full_text, segments := p.1.full_transcript,
     duration := now - st.start_time, word_count := (pySplit full_text).length },
   p.2)

/-- Service states reachable from `__init__` through the public operations. -/
inductive Reach : LiveState → Prop
  | init (session_id language : String) (meeting_id : Option Nat) (now : ℚ) :
      Reach (initState session_id language meeting_id now)
  | chunk (st : LiveState) (w : Whisper) (now : ℚ) (data : String) :
      Reach st → Reach (process_audio_chunk st w now data).1
  | fin (st : LiveState) (w : Whisper) (now : ℚ) :
      Reach st → Reach (finalize st w now).1

/-- `MeetingStatus` from `src/db/models.py`. -/
inductive MeetingStatus
  | uploading | processing | completed | failed
  deriving DecidableEq, Repr

/-- The `Meeting` row fields touched by the websocket handler. -/
structure Meeting where
  id : Nat
  title : String
  status : MeetingStatus
  participants : List String
  meeting_date : ℚ
  transcript : Option String
  duration_seconds : Option ℚ
  deriving DecidableEq, Repr

/-- `MeetingRepository.create` inside the start branch: insert a PROCESSING row
with a fresh id (the autoincrement primary key is modelled by `next_id`). -/
def meetingCreate (db : List Meeting) (next_id : Nat) (title : String)
    (participants : List String) (now : ℚ) : List Meeting × Nat :=
  (db ++ [{ id := next_id, title := title, status := .processing,
            participants := participants, meeting_date := now,
            transcript := none, duration_seconds := none }], next_id)

/-- The stop branch's `get_by_id` plus field assignments inside `with get_db()`
(which commits on exit): when the row exists, set transcript, duration and
COMPLETED status; otherwise leave the table unchanged. -/
def meetingUpdateOnStop (db : List Meeting) (mid : Nat) (transcript : String)
    (dur : ℚ) : List Meeting :=
  db.map (fun m =>
    if m.id = mid then
      { m with
        transcript := some transcript,
        duration_seconds := some dur,
        status := .completed }
    else m)

/-- One value of the `active_sessions` dict (the service object itself lives in
the handler state `Conn.svc`; the registry keeps the snapshot fields). -/
structure RegEntry where
  meeting_id : Nat
  start_time : ℚ
  deriving DecidableEq, Repr

/-- `active_sessions[sid] = entry` (insert or overwrite). -/
def regSet (reg : List (String × RegEntry)) (sid : String) (e : RegEntry) :
    List (String × RegEntry) :=
  (reg.filter (fun p => p.1 ≠ sid)) ++ [(sid, e)]

/-- `if sid in active_sessions: del active_sessions[sid]`. -/
def regDel (reg : List (String × RegEntry)) (sid : String) :
    List (String × RegEntry) :=
  reg.filter (fun p => p.1 ≠ sid)

/-- Inbound protocol messages, already JSON-parsed; `disconnect` is the
`WebSocketDisconnect` raised by `receive_text`. -/
inductive InEvent
  | start (meeting_title : Option String) (language : Option String)
      (participants : List String)
  | audio (data : Option String)
  | stop
  | ping
  | other (t : Option String)
  | disconnect
  deriving DecidableEq, Repr

/-- Outbound protocol messages sent by the handler. -/
inductive OutMsg
  | connected (session_id : String)
  | session_started (session_id : String) (meeting_id : Nat)
  | transcript (text : String) (is_final : Bool) (timestamp : ℚ) (confidence : ℚ)
  | session_ended (session_id : String) (meeting_id : Option Nat)
      (final_transcript : String) (duration : ℚ) (word_count : Nat)
  | pong
  | errorMsg (message : String)
  deriving DecidableEq, Repr

/-- Observable actions of the handler's control flow, in program order:
receiving an inbound event, entering and leaving a recognition call, and
sending an outbound message. -/
inductive Action
  | recv (ev : InEvent)
  | recStart (block : List ℚ)
  | recEnd
  | sent (m : OutMsg)
  deriving DecidableEq, Repr

/-- The state of one `websocket_transcribe` invocation: the handler locals
(`transcription_service`, `meeting_id`), the shared registry and meeting
table, the fresh-id supply, and the observable output. -/
structure Conn where
  svc : Option LiveState
  meeting_id : Option Nat
  registry : List (String × RegEntry)
  db : List Meeting
  next_id : Nat
  outbox : List OutMsg
  trace : List Action
  deriving DecidableEq, Repr

/-- How the loop body ended: fall through to the next `receive_text`, `break`
out of the loop, or propagate `WebSocketDisconnect`. -/
inductive LoopCtl
  | cont | brk | disc
  deriving DecidableEq, Repr

/-- Recognition calls as trace actions; each call is entered and returned from
before the handler continues (the `await` completes in place). -/
def recActions (calls : List (List ℚ)) : List Action :=
  (calls.map (fun b => [Action.recStart b, Action.recEnd])).flatten

/-- One iteration of the `while True` body of `websocket_transcribe`, given the
parsed inbound event.  Mirrors the source branch by branch:
`start` creates a meeting row and a fresh service unconditionally (no guard
against an already-started session) and overwrites the registry entry;
`audio` replies with an error when no service exists, skips falsy payloads,
and otherwise runs `process_audio_chunk`, emitting a transcript message only
for a non-`None` result; `stop` with a service finalises, persists, deletes
the registry entry, replies `session_ended`, and breaks — with no service it
does nothing at all; `ping` answers `pong`; anything else gets an error
reply; `disconnect` leaves the loop through the `except WebSocketDisconnect`
arm. -/
def handleEvent (w : Whisper) (sid : String) (c : Conn) (ev : InEvent) (now : ℚ) :
    Conn × LoopCtl :=
  let c0 := { c with trace := c.trace ++ [Action.recv ev] }
  match ev with
  | .start _meeting_title language participants =>
    let lang := language.getD "en"
    let created := meetingCreate c0.db c0.next_id
      (_meeting_title.getD "Live Meeting") participants now
    let svc := initState sid lang (some created.2) now
    let msg := OutMsg.session_started sid created.2
    ({ c0 with
       svc := some svc,
       meeting_id := some created.2,
       db := created.1,
       next_id := c0.next_id + 1,
       registry := regSet c0.registry sid
         { meeting_id := created.2, start_time := now },
       outbox := c0.outbox ++ [msg],
       trace := c0.trace ++ [Action.sent msg] }, .cont)
  | .audio data =>
    match c0.svc with
    | none =>
      let msg := OutMsg.errorMsg "Session not started. Send start first."
      ({ c0 with
         outbox := c0.outbox ++ [msg],
         trace := c0.trace ++ [Action.sent msg] }, .cont)
    | some st =>
      match data with
      | none => (c0, .cont)
      | some s =>
        if s = "" then (c0, .cont)
        else
          let p := process_audio_chunk st w now s
          let c1 := { c0 with
            svc := some p.1,
            trace := c0.trace ++ recActions p.2.2 }
          match p.2.1 with
          | some r =>
            let msg := OutMsg.transcript r.text r.is_final r.timestamp r.confidence
            ({ c1 with
               outbox := c1.outbox ++ [msg],
               trace := c1.trace ++ [Action.sent msg] }, .cont)
          | none => (c1, .cont)
  | .stop =>
    match c0.svc with
    | none => (c0, .cont)
    | some st =>
      let p := finalize st w now
      let db1 := match c0.meeting_id with
        | some mid => meetingUpdateOnStop c0.db mid p.2.1.full_transcript p.2.1.duration
        | none => c0.db
      let msg := OutMsg.session_ended sid c0.meeting_id p.2.1.full_transcript
        p.2.1.duration ((pySplit p.2.1.full_transcript).length)
      ({ c0 with
         svc := some p.1,
         db := db1,
         registry := regDel c0.registry sid,
         outbox := c0.outbox ++ [msg],
         trace := c0.trace ++ recActions p.2.2 ++ [Action.sent msg] }, .brk)
  | .ping =>
    ({ c0 with
       outbox := c0.outbox ++ [OutMsg.pong],
       trace := c0.trace ++ [Action.sent OutMsg.pong] }, .cont)
  | .other t =>
    let msg := OutMsg.errorMsg ("Unknown message type: " ++ t.getD "None")
    ({ c0 with
       outbox := c0.outbox ++ [msg],
       trace := c0.trace ++ [Action.sent msg] }, .cont)
  | .disconnect => (c0, .disc)

/-- The `finally` block: remove the registry entry. -/
def finallyCleanup (sid : String) (c : Conn) : Conn :=
  { c with registry := regDel c.registry sid }

/-- The receive loop over a list of timed inbound events.  On `break` or
`WebSocketDisconnect` the `finally` cleanup runs and the remaining events are
never read; an exhausted list models a connection still waiting for its next
message (the `finally` block has not run yet). -/
def runEvents (w : Whisper) (sid : String) : Conn → List (InEvent × ℚ) → Conn
  | c, [] => c
  | c, (ev, now) :: rest =>
    match handleEvent w sid c ev now with
    | (c1, .cont) => runEvents w sid c1 rest
    | (c1, .brk) => finallyCleanup sid c1
    | (c1, .disc) => finallyCleanup sid c1

/-- A whole `websocket_transcribe` invocation: accept, send the welcome
message, then run the receive loop. -/
def runConn (w : Whisper) (sid : String) (reg : List (String × RegEntry))
    (db : List Meeting) (next_id : Nat) (events : List (InEvent × ℚ)) : Conn :=
  runEvents w sid
    { svc := none, meeting_id := none, registry := reg, db := db,
      next_id := next_id, outbox := [OutMsg.connected sid],
      trace := [Action.sent (OutMsg.connected sid)] } events

/-- `true` when the trace receives an inbound event strictly between entering
and leaving some recognition call (i.e. when the loop accepted a message
while recognition was still running). -/
def recvWhileRecAux : Bool → List Action → Bool
  | _, [] => false
  | inRec, a :: rest =>
    match a with
    | .recStart _ => recvWhileRecAux true rest
    | .recEnd => recvWhileRecAux false rest
    | .recv _ => if inRec then true else recvWhileRecAux inRec rest
    | .sent _ => recvWhileRecAux inRec rest

/-- See `recvWhileRecAux`. -/
def recvWhileRec (tr : List Action) : Bool := recvWhileRecAux false tr

/-- `true` when every recognition interval in the trace is immediately closed:
no receive, send, or nested recognition happens between `recStart` and its
`recEnd`, and no interval is left open — the shape of an inline `await`. -/
def inlineAwaitedAux : Bool → List Action → Bool
  | inRec, [] => !inRec
  | inRec, a :: rest =>
    match a with
    | .recStart _ => if inRec then false else inlineAwaitedAux true rest
    | .recEnd => if inRec then inlineAwaitedAux false rest else false
    | _ => if inRec then false else inlineAwaitedAux false rest

/-- See `inlineAwaitedAux`. -/
def inlineAwaited (tr : List Action) : Bool := inlineAwaitedAux false tr

/-- Forget an action's payload, keeping only its kind (0 = receive,
1 = recognition entered, 2 = recognition returned, 3 = message sent). -/
def tagOf : Action → Nat
  | .recv _ => 0
  | .recStart _ => 1
  | .recEnd => 2
  | .sent _ => 3

/-- A recogniser whose underlying model always raises. -/
def wFail : Whisper := fun _ => .error ()

/-- A recogniser that always hears the word hello. -/
def wHello : Whisper := fun _ => .ok "hello"

/-- A recogniser that always returns silence (empty text). -/
def wEmpty : Whisper := fun _ => .ok ""

/-- Feed the service `n` copies of the chunk `"AAA="` (base64 for two zero
bytes, i.e. one 16-bit sample, 1/16000 s), starting from a fresh session. -/
def pump : Nat → LiveState
  | 0 => initState "s" "en" none 0
  | n + 1 => (process_audio_chunk (pump n) wFail 0 "AAA=").1

/-- A session mid-`Recording`: one fragment already recognised and one
one-sample chunk still buffered. -/
def c3State : LiveState :=
  { initState "s" "en" none 0 with
    audio_buffer := [[0]],
    buffer_duration := 1 / 16000,
    full_transcript := [{ text := "hello", timestamp := 1, offset := 1 }] }

/-- A session mid-`Recording` holding 47999 buffered samples (2.9999 s, one
sample short of the 3 s threshold), so that the next one-sample chunk
triggers a flush. -/
def c2Svc : LiveState :=
  { initState "s" "en" none 0 with
    audio_buffer := [List.replicate 47999 0],
    buffer_duration := 47999 / 16000 }

/-- A connection whose session is `Recording` in the state `c2Svc`. -/
def c2Conn : Conn :=
  { svc := some c2Svc, meeting_id := some 1, registry := [], db := [],
    next_id := 2, outbox := [], trace := [] }

/-- The service state after `c2Svc` receives one more one-sample chunk and
flushes: the post-recognition state with the buffer cleared. -/
def c2Flushed : LiveState :=
  { (transcribe_audio (bufferAppend c2Svc [(0 : ℚ)]) wHello 1
      ((bufferAppend c2Svc [(0 : ℚ)]).audio_buffer.flatten)).1 with
    audio_buffer := [], buffer_duration := 0 }

/-- A connection that has been accepted but has not seen `start`. -/
def emptyConn : Conn :=
  { svc := none, meeting_id := none, registry := [], db := [],
    next_id := 1, outbox := [], trace := [] }

/-- A trace segment that can be appended to any closed scan point without
changing either scan's verdict: it opens no recognition interval that it does
not immediately close. -/
def closedSeg (s : List Action) : Prop :=
  ∀ rest : List Action,
    inlineAwaitedAux false (s ++ rest) = inlineAwaitedAux false rest ∧
    recvWhileRecAux false (s ++ rest) = recvWhileRecAux false rest

/-!  Helper lemmas about the embedded operations.  -/

theorem bufferAppend_min (st : LiveState) (c : List ℚ) :
    (bufferAppend st c).min_buffer_duration = st.min_buffer_duration := rfl

theorem bufferAppend_duration (st : LiveState) (c : List ℚ) :
    (bufferAppend st c).buffer_duration =
      st.buffer_duration + (c.length : ℚ) / 16000 := rfl

theorem bufferAppend_buffer (st : LiveState) (c : List ℚ) :
    (bufferAppend st c).audio_buffer = dequeAppend 100 st.audio_buffer c := rfl

theorem transcribe_audio_fields (st : LiveState) (w : Whisper) (now : ℚ)
    (audio : List ℚ) :
    (transcribe_audio st w now audio).1.audio_buffer = st.audio_buffer ∧
    (transcribe_audio st w now audio).1.buffer_duration = st.buffer_duration ∧
    (transcribe_audio st w now audio).1.min_buffer_duration = st.min_buffer_duration ∧
    (transcribe_audio st w now audio).1.start_time = st.start_time ∧
    (transcribe_audio st w now audio).1.session_id = st.session_id := by
  unfold transcribe_audio
  cases w audio with
  | error e => exact ⟨rfl, rfl, rfl, rfl, rfl⟩
  | ok raw =>
    dsimp only
    split <;> exact ⟨rfl, rfl, rfl, rfl, rfl⟩

theorem process_decode_fail (st : LiveState) (w : Whisper) (now : ℚ) (data : String)
    (hdec : decodeAudio data = none) :
    process_audio_chunk st w now data = (st, none, []) := by
  unfold process_audio_chunk
  rw [hdec]

theorem process_below (st : LiveState) (w : Whisper) (now : ℚ) (data : String)
    (chunk : List ℚ) (hdec : decodeAudio data = some chunk)
    (hlt : (bufferAppend st chunk).buffer_duration <
      (bufferAppend st chunk).min_buffer_duration) :
    process_audio_chunk st w now data = (bufferAppend st chunk, none, []) := by
  unfold process_audio_chunk
  rw [hdec]
  dsimp only
  rw [if_neg (not_le.mpr hlt)]

theorem process_flush (st : LiveState) (w : Whisper) (now : ℚ) (data : String)
    (chunk : List ℚ) (hdec : decodeAudio data = some chunk)
    (hge : (bufferAppend st chunk).buffer_duration ≥
      (bufferAppend st chunk).min_buffer_duration) :
    process_audio_chunk st w now data =
      ({ (transcribe_audio (bufferAppend st chunk) w now
            ((bufferAppend st chunk).audio_buffer.flatten)).1 with
         audio_buffer := [], buffer_duration := 0 },
       (transcribe_audio (bufferAppend st chunk) w now
          ((bufferAppend st chunk).audio_buffer.flatten)).2,
       [(bufferAppend st chunk).audio_buffer.flatten]) := by
  unfold process_audio_chunk
  rw [hdec]
  dsimp only
  rw [if_pos hge]

theorem finalize_eq (st : LiveState) (w : Whisper) (now : ℚ) :
    finalize st w now =
      (if st.audio_buffer ≠ [] ∧ st.buffer_duration > 0 then
        (transcribe_audio st w now st.audio_buffer.flatten).1
       else st,
       { full_transcript := spaceJoin
           ((if st.audio_buffer ≠ [] ∧ st.buffer_duration > 0 then
               (transcribe_audio st w now st.audio_buffer.flatten).1
             else st).full_transcript.map Fragment.text),
         segments := (if st.audio_buffer ≠ [] ∧ st.buffer_duration > 0 then
             (transcribe_audio st w now st.audio_buffer.flatten).1
           else st).full_transcript,
         duration := now - st.start_time,
         word_count := (pySplit (spaceJoin
           ((if st.audio_buffer ≠ [] ∧ st.buffer_duration > 0 then
               (transcribe_audio st w now st.audio_buffer.flatten).1
             else st).full_transcript.map Fragment.text))).length },
       if st.audio_buffer ≠ [] ∧ st.buffer_duration > 0 then
         [st.audio_buffer.flatten]
       else []) := by
  unfold finalize
  split <;> rfl

theorem decodeAudio_AAA : decodeAudio "AAA=" = some [(0 : ℚ)] := by
  have h : b64decode "AAA=" = some [0, 0] := rfl
  simp [decodeAudio, h, bytesToSamples, int16OfBytes]

theorem transcribe_audio_none (st : LiveState) (w : Whisper) (now : ℚ)
    (audio : List ℚ)
    (h : w audio = .error () ∨ ∃ s, w audio = .ok s ∧ pyStrip s = "") :
    transcribe_audio st w now audio = (st, none) := by
  unfold transcribe_audio
  rcases h with h | ⟨s, hs, ht⟩
  · rw [h]
  · rw [hs]
    simp [ht]

/-- **C5.**  For every audio chunk processed while Recording: after appending
the decoded chunk, the flush fires if and only if the running duration has
reached the configured threshold; on a flush all held chunks are concatenated
in arrival order into one block handed to recognition and the buffer is
cleared with the running duration reset to zero, and otherwise the call
returns the no-output value with the buffer retained (exactly the appended
deque, not cleared). -/
theorem C5_flush_iff (st : LiveState) (w : Whisper) (now : ℚ) (data : String)
    (chunk : List ℚ) (hdec : decodeAudio data = some chunk) :
    ((bufferAppend st chunk).buffer_duration ≥
        (bufferAppend st chunk).min_buffer_duration →
      process_audio_chunk st w now data =
        ({ (transcribe_audio (bufferAppend st chunk) w now
              ((bufferAppend st chunk).audio_buffer.flatten)).1 with
           audio_buffer := [], buffer_duration := 0 },
         (transcribe_audio (bufferAppend st chunk) w now
            ((bufferAppend st chunk).audio_buffer.flatten)).2,
         [(bufferAppend st chunk).audio_buffer.flatten])) ∧
    ((bufferAppend st chunk).buffer_duration <
        (bufferAppend st chunk).min_buffer_duration →
      process_audio_chunk st w now data = (bufferAppend st chunk, none, [])) :=
  ⟨fun h => process_flush st w now data chunk hdec h,
   fun h => process_below st w now data chunk hdec h⟩

/-- Witness for C5 at concrete inputs: a one-sample chunk on a buffer holding
47999 samples triggers the flush, and the same chunk on a fresh session is
only buffered. -/
theorem C5_witness :
    process_audio_chunk c2Svc wHello 1 "AAA=" =
      ({ (transcribe_audio (bufferAppend c2Svc [(0 : ℚ)]) wHello 1
            ((bufferAppend c2Svc [(0 : ℚ)]).audio_buffer.flatten)).1 with
         audio_buffer := [], buffer_duration := 0 },
       (transcribe_audio (bufferAppend c2Svc [(0 : ℚ)]) wHello 1
          ((bufferAppend c2Svc [(0 : ℚ)]).audio_buffer.flatten)).2,
       [(bufferAppend c2Svc [(0 : ℚ)]).audio_buffer.flatten]) ∧
    process_audio_chunk (initState "s" "en" none 0) wHello 1 "AAA=" =
      (bufferAppend (initState "s" "en" none 0) [(0 : ℚ)], none, []) :=
  ⟨(C5_flush_iff c2Svc wHello 1 "AAA=" [0] decodeAudio_AAA).1
      (by norm_num [bufferAppend, c2Svc, initState]),
   (C5_flush_iff (initState "s" "en" none 0) wHello 1 "AAA=" [0] decodeAudio_AAA).2
      (by norm_num [bufferAppend, initState])⟩

/-- **C10.**  `process_audio_chunk` is total at the public interface (the
embedding is a total function whose error paths mirror the caught
exceptions): when decoding fails the state is untouched and the returned
value is the no-output value `none`; buffering below the threshold returns
`none`; and a recognition failure on a flush also returns `none` — so the
caller cannot distinguish a dropped chunk from normal buffering. -/
theorem C10_totality (st : LiveState) (w : Whisper) (now : ℚ) (data : String) :
    (decodeAudio data = none → process_audio_chunk st w now data = (st, none, [])) ∧
    (∀ chunk, decodeAudio data = some chunk →
      (bufferAppend st chunk).buffer_duration <
        (bufferAppend st chunk).min_buffer_duration →
      (process_audio_chunk st w now data).2.1 = none) ∧
    (∀ chunk, decodeAudio data = some chunk →
      w ((bufferAppend st chunk).audio_buffer.flatten) = .error () →
      (process_audio_chunk st w now data).2.1 = none) := by
  refine ⟨fun h => process_decode_fail st w now data h, ?_, ?_⟩
  · intro chunk hdec hlt
    rw [process_below st w now data chunk hdec hlt]
  · intro chunk hdec herr
    by_cases hge : (bufferAppend st chunk).buffer_duration ≥
      (bufferAppend st chunk).min_buffer_duration
    · rw [process_flush st w now data chunk hdec hge]
      dsimp only
      rw [transcribe_audio_none _ w now _ (Or.inl herr)]
    · rw [process_below st w now data chunk hdec (lt_of_not_ge hge)]

/-- Witness for C10 at concrete inputs: an invalid base64 payload (five
alphabet characters cannot form quads), a one-sample chunk below the
threshold, and a flush whose recognition raises, all return the no-output
value. -/
theorem C10_witness :
    process_audio_chunk (initState "s" "en" none 0) wHello 0 "AAAAA" =
      (initState "s" "en" none 0, none, []) ∧
    (process_audio_chunk (initState "s" "en" none 0) wHello 0 "AAA=").2.1 = none ∧
    (process_audio_chunk c2Svc wFail 0 "AAA=").2.1 = none :=
  ⟨(C10_totality (initState "s" "en" none 0) wHello 0 "AAAAA").1 rfl,
   (C10_totality (initState "s" "en" none 0) wHello 0 "AAA=").2.1 [0]
      decodeAudio_AAA (by norm_num [bufferAppend, initState]),
   (C10_totality c2Svc wFail 0 "AAA=").2.2 [0] decodeAudio_AAA rfl⟩

/-- **C7.**  When recognition of a flushed block returns empty text or the
model raises, no fragment is appended, the call returns the no-output value
(so the transport layer emits no transcript message and leaves the outbox
unchanged), and the session continues unharmed (buffer cleared, start time
intact, loop continues). -/
theorem C7_silence_or_failure (c : Conn) (st : LiveState) (w : Whisper)
    (sid : String) (now : ℚ) (data : String) (chunk : List ℚ)
    (hsvc : c.svc = some st) (hdata : data ≠ "")
    (hdec : decodeAudio data = some chunk)
    (hge : (bufferAppend st chunk).buffer_duration ≥
      (bufferAppend st chunk).min_buffer_duration)
    (hw : w ((bufferAppend st chunk).audio_buffer.flatten) = .error () ∨
      ∃ s, w ((bufferAppend st chunk).audio_buffer.flatten) = .ok s ∧
        pyStrip s = "") :
    (process_audio_chunk st w now data).1.full_transcript = st.full_transcript ∧
    (process_audio_chunk st w now data).2.1 = none ∧
    (process_audio_chunk st w now data).1.audio_buffer = [] ∧
    (process_audio_chunk st w now data).1.buffer_duration = 0 ∧
    (process_audio_chunk st w now data).1.start_time = st.start_time ∧
    (handleEvent w sid c (.audio (some data)) now).1.outbox = c.outbox ∧
    (handleEvent w sid c (.audio (some data)) now).2 = .cont := by
  have hp := process_flush st w now data chunk hdec hge
  have ht := transcribe_audio_none (bufferAppend st chunk) w now
    ((bufferAppend st chunk).audio_buffer.flatten) hw
  rw [ht] at hp
  refine ⟨?_, ?_, ?_, ?_, ?_, ?_, ?_⟩ <;>
    simp [handleEvent, hsvc, hdata, hp, bufferAppend]

theorem dequeAppend_length {α : Type} (cap : Nat) (buf : List α) (x : α) :
    (dequeAppend cap buf x).length = min (buf.length + 1) cap := by
  unfold dequeAppend
  simp only [List.length_drop, List.length_append, List.length_cons,
    List.length_nil]
  omega

theorem dequeAppend_of_le {α : Type} (cap : Nat) (buf : List α) (x : α)
    (h : buf.length + 1 ≤ cap) : dequeAppend cap buf x = buf ++ [x] := by
  dsimp only [dequeAppend]
  have h0 : (buf ++ [x]).length - cap = 0 := by
    simp only [List.length_append, List.length_cons, List.length_nil]
    omega
  rw [h0, List.drop_zero]

theorem sumDur_append (a b : List (List ℚ)) :
    sumDur (a ++ b) = sumDur a + sumDur b := by
  simp [sumDur]

theorem sumDur_singleton (c : List ℚ) :
    sumDur [c] = (c.length : ℚ) / 16000 := by
  simp [sumDur]

theorem finalize_fields (st : LiveState) (w : Whisper) (now : ℚ) :
    (finalize st w now).1.audio_buffer = st.audio_buffer ∧
    (finalize st w now).1.buffer_duration = st.buffer_duration ∧
    (finalize st w now).1.min_buffer_duration = st.min_buffer_duration ∧
    (finalize st w now).1.start_time = st.start_time := by
  rw [finalize_eq]
  dsimp only
  split
  · exact ⟨(transcribe_audio_fields st w now st.audio_buffer.flatten).1,
      (transcribe_audio_fields st w now st.audio_buffer.flatten).2.1,
      (transcribe_audio_fields st w now st.audio_buffer.flatten).2.2.1,
      (transcribe_audio_fields st w now st.audio_buffer.flatten).2.2.2.1⟩
  · exact ⟨rfl, rfl, rfl, rfl⟩

/-- The master invariant of reachable service states: the threshold is the
configured 3 s, flushing is immediate (the running duration never reaches the
threshold at rest), the chunk cap is respected, and as long as the deque has
not reached its cap the running duration is exactly the sum of held chunk
durations. -/
theorem reach_invariant (st : LiveState) (h : Reach st) :
    st.min_buffer_duration = 3 ∧
    st.buffer_duration < 3 ∧
    st.audio_buffer.length ≤ 100 ∧
    (st.audio_buffer.length < 100 →
      st.buffer_duration = sumDur st.audio_buffer) := by
  induction h with
  | init sid lang mid now =>
    refine ⟨rfl, by norm_num [initState], by simp [initState], fun _ => ?_⟩
    simp [initState, sumDur]
  | chunk st w now data hr ih =>
    obtain ⟨hmin, hdur, hlen, heq⟩ := ih
    cases hdec : decodeAudio data with
    | none =>
      rw [process_decode_fail st w now data hdec]
      exact ⟨hmin, hdur, hlen, heq⟩
    | some chunk =>
      by_cases hge : (bufferAppend st chunk).buffer_duration ≥
        (bufferAppend st chunk).min_buffer_duration
      · rw [process_flush st w now data chunk hdec hge]
        refine ⟨?_, by norm_num, by simp, fun _ => by simp [sumDur]⟩
        exact ((transcribe_audio_fields (bufferAppend st chunk) w now
          ((bufferAppend st chunk).audio_buffer.flatten)).2.2.1).trans hmin
      · have hlt := lt_of_not_ge hge
        rw [process_below st w now data chunk hdec hlt]
        refine ⟨hmin, ?_, ?_, ?_⟩
        · have : (bufferAppend st chunk).min_buffer_duration = 3 :=
            (bufferAppend_min st chunk).trans hmin
          rw [this] at hlt
          exact hlt
        · rw [bufferAppend_buffer, dequeAppend_length]
          omega
        · intro hlen'
          rw [bufferAppend_buffer, dequeAppend_length] at hlen'
          have h1 : st.audio_buffer.length + 1 ≤ 100 := by omega
          have h2 : st.audio_buffer.length < 100 := by omega
          rw [bufferAppend_duration, bufferAppend_buffer,
            dequeAppend_of_le _ _ _ h1, sumDur_append, sumDur_singleton, heq h2]
  | fin st w now hr ih =>
    obtain ⟨hmin, hdur, hlen, heq⟩ := ih
    obtain ⟨hb, hd, hm, -⟩ := finalize_fields st w now
    refine ⟨hm.trans hmin, ?_, ?_, ?_⟩
    · rw [hd]; exact hdur
    · rw [hb]; exact hlen
    · rw [hb, hd]; exact heq

theorem pump_reach (n : Nat) : Reach (pump n) := by
  induction n with
  | zero => exact Reach.init "s" "en" none 0
  | succ n ih => exact Reach.chunk (pump n) wFail 0 "AAA=" ih

/-- Closed form of the pumped states: after `n ≤ 101` one-sample chunks the
running duration is `n / 16000` while the deque holds only the most recent
`min n 100` chunks. -/
theorem pump_closed (n : Nat) (hn : n ≤ 101) :
    (pump n).buffer_duration = (n : ℚ) / 16000 ∧
    (pump n).audio_buffer = List.replicate (min n 100) [(0 : ℚ)] ∧
    (pump n).min_buffer_duration = 3 := by
  induction n with
  | zero => refine ⟨by simp [pump, initState], by simp [pump, initState], rfl⟩
  | succ n ih =>
    obtain ⟨hd, hb, hm⟩ := ih (Nat.le_of_succ_le hn)
    have hq : (n : ℚ) ≤ 100 := by
      have : n ≤ 100 := by omega
      exact_mod_cast this
    have hlt : (bufferAppend (pump n) [(0 : ℚ)]).buffer_duration <
        (bufferAppend (pump n) [(0 : ℚ)]).min_buffer_duration := by
      rw [bufferAppend_duration, bufferAppend_min, hd, hm]
      rw [div_add_div_same, div_lt_iff₀ (by norm_num : (0 : ℚ) < 16000)]
      simp only [List.length_cons, List.length_nil]
      push_cast
      linarith
    have hstep : pump (n + 1) =
        (process_audio_chunk (pump n) wFail 0 "AAA=").1 := rfl
    rw [hstep, process_below (pump n) wFail 0 "AAA=" [0] decodeAudio_AAA hlt]
    refine ⟨?_, ?_, (bufferAppend_min _ _).trans hm⟩
    · rw [bufferAppend_duration, hd]
      simp only [List.length_cons, List.length_nil, Nat.cast_one]
      rw [div_add_div_same]
      push_cast
      ring
    · rw [bufferAppend_buffer, hb]
      by_cases h100 : n < 100
      · rw [Nat.min_eq_left (Nat.le_of_lt h100)]
        rw [dequeAppend_of_le _ _ _ (by simp [List.length_replicate]; omega)]
        rw [← List.replicate_succ']
        congr 1
        omega
      · have hn100 : min n 100 = 100 := by omega
        rw [hn100]
        dsimp only [dequeAppend]
        have hlen101 : (List.replicate 100 [(0 : ℚ)] ++ [[0]]).length - 100 = 1 := by
          simp
        rw [hlen101]
        rw [List.drop_append_of_le_length (by simp)]
        rw [List.drop_replicate]
        have : List.replicate (100 - 1) [(0 : ℚ)] ++ [[0]] =
            List.replicate 100 [(0 : ℚ)] := by
          norm_num
          exact (List.replicate_succ' 99 [(0 : ℚ)]).symm
        rw [this]
        congr 1
        omega

/-- **C1 (amended).**  In every reachable service state the buffer holds at
most the configured cap of 100 chunks, and the running duration equals the
sum of the held chunks' durations whenever the buffer is below the cap (i.e.
whenever the deque has not evicted a chunk since the last flush).  When the
cap is hit, `deque(maxlen=100).append` silently evicts the oldest chunk while
`buffer_duration` keeps counting it, so the unconditional equality of the
original claim fails (see the counterexample). -/
theorem C1_buffer_invariant_amended (st : LiveState) (h : Reach st) :
    st.audio_buffer.length ≤ 100 ∧
    (st.audio_buffer.length < 100 →
      st.buffer_duration = sumDur st.audio_buffer) :=
  ⟨(reach_invariant st h).2.2.1, (reach_invariant st h).2.2.2⟩

/-- Witness for C1 at a concrete reachable state. -/
theorem C1_witness :
    (initState "s" "en" none 0).audio_buffer.length ≤ 100 ∧
    ((initState "s" "en" none 0).audio_buffer.length < 100 →
      (initState "s" "en" none 0).buffer_duration =
        sumDur (initState "s" "en" none 0).audio_buffer) :=
  C1_buffer_invariant_amended (initState "s" "en" none 0)
    (Reach.init "s" "en" none 0)

/-- Counterexample to C1 as stated: after 101 one-sample chunks (none of
which ever reaches the flush threshold) the deque has evicted the first
chunk, so the state is reachable, yet the running duration `101 / 16000`
differs from the held sum `100 / 16000`. -/
theorem C1_counterexample :
    Reach (pump 101) ∧
    (pump 101).buffer_duration ≠ sumDur (pump 101).audio_buffer := by
  obtain ⟨hd, hb, -⟩ := pump_closed 101 le_rfl
  refine ⟨pump_reach 101, ?_⟩
  rw [hd, hb]
  have hs : sumDur (List.replicate (min 101 100) [(0 : ℚ)]) = 100 / 16000 := by
    norm_num [sumDur, List.map_replicate, List.sum_replicate, nsmul_eq_mul]
  rw [hs]
  norm_num

/-- **C9 (amended).**  In the integrated loop flushing is immediate, so
`should_flush` is false in every reachable state, and appending any chunk of
duration at most the 3 s threshold keeps the running duration strictly below
twice the threshold.  The unrestricted claim fails for a single chunk longer
than 6 s (see the counterexample). -/
theorem C9_bounded_accumulation (st : LiveState) (h : Reach st) (chunk : List ℚ)
    (hc : (chunk.length : ℚ) / 16000 ≤ 3) :
    should_flush st = false ∧
    (bufferAppend st chunk).buffer_duration < 2 * 3 := by
  obtain ⟨hmin, hdur, -, -⟩ := reach_invariant st h
  constructor
  · simp only [should_flush, hmin, ge_iff_le, decide_eq_false_iff_not, not_le]
    exact hdur
  · rw [bufferAppend_duration]
    linarith

/-- Witness for C9 at a concrete reachable state and chunk. -/
theorem C9_witness :
    should_flush (initState "s" "en" none 0) = false ∧
    (bufferAppend (initState "s" "en" none 0) [(0 : ℚ)]).buffer_duration <
      2 * 3 :=
  C9_bounded_accumulation (initState "s" "en" none 0)
    (Reach.init "s" "en" none 0) [0] (by norm_num)

/-- Counterexample to C9 as stated: a single 7 s chunk (112000 samples) is a
sequence whose durations sum to at least 3 s, yet its single append pushes
the running duration from 0 straight past twice the threshold while
`should_flush` was never true before it. -/
theorem C9_counterexample :
    should_flush (initState "s" "en" none 0) = false ∧
    ((List.replicate 112000 (0 : ℚ)).length : ℚ) / 16000 ≥ 3 ∧
    (bufferAppend (initState "s" "en" none 0)
        (List.replicate 112000 0)).buffer_duration > 2 * 3 := by
  refine ⟨?_, ?_, ?_⟩
  · simp only [should_flush, initState, ge_iff_le, decide_eq_false_iff_not,
      not_le]
    norm_num
  · simp only [List.length_replicate]
    norm_num
  · rw [bufferAppend_duration]
    simp only [List.length_replicate, initState]
    norm_num

theorem transcribe_audio_wHello (st : LiveState) (now : ℚ) (audio : List ℚ) :
    transcribe_audio st wHello now audio =
      ({ st with full_transcript := st.full_transcript ++
          [{ text := "hello", timestamp := now,
             offset := now - st.start_time }] },
       some { text := "hello", is_final := true, timestamp := now,
              confidence := 1 }) := by
  have hps : pyStrip "hello" = "hello" := rfl
  simp only [transcribe_audio, wHello, hps]
  rw [if_pos (by decide : ¬ ("hello" : String) = "")]

theorem transcribe_audio_transcript_cases (st : LiveState) (w : Whisper)
    (now : ℚ) (audio : List ℚ) :
    (transcribe_audio st w now audio).1.full_transcript = st.full_transcript ∨
    ∃ t, (transcribe_audio st w now audio).1.full_transcript =
      st.full_transcript ++
        [{ text := t, timestamp := now, offset := now - st.start_time }] := by
  unfold transcribe_audio
  cases w audio with
  | error e => exact Or.inl rfl
  | ok raw =>
    dsimp only
    split
    · exact Or.inr ⟨pyStrip raw, rfl⟩
    · exact Or.inl rfl

/-- **C3 (code bug).**  `finalize` never clears the audio buffer, so a second
finalize of the same session re-invokes the recognition engine on the same
remaining block (the recognition-calls list of the second run is non-empty)
and returns a different result (a duplicated trailing fragment: three words
instead of two).  A second stop is therefore not the specified no-op
returning the previously computed result. -/
theorem C3_double_finalize_bug :
    (finalize c3State wHello 2).1.audio_buffer = c3State.audio_buffer ∧
    (finalize (finalize c3State wHello 2).1 wHello 2).2.2 ≠ [] ∧
    (finalize c3State wHello 2).2.1.word_count = 2 ∧
    (finalize (finalize c3State wHello 2).1 wHello 2).2.1.word_count = 3 := by
  have hcond1 : c3State.audio_buffer ≠ [] ∧ c3State.buffer_duration > 0 :=
    ⟨by simp [c3State, initState], by norm_num [c3State, initState]⟩
  obtain ⟨hb1, hd1, -, -⟩ := finalize_fields c3State wHello 2
  have hcond2 : (finalize c3State wHello 2).1.audio_buffer ≠ [] ∧
      (finalize c3State wHello 2).1.buffer_duration > 0 := by
    rw [hb1, hd1]; exact hcond1
  have hfl : c3State.audio_buffer.flatten = [(0 : ℚ)] := rfl
  have hft1 : (finalize c3State wHello 2).1.full_transcript =
      c3State.full_transcript ++
        [{ text := "hello", timestamp := 2,
           offset := 2 - c3State.start_time }] := by
    rw [finalize_eq c3State wHello 2]
    dsimp only
    rw [if_pos hcond1, hfl, transcribe_audio_wHello]
  have hwc1 : (finalize c3State wHello 2).2.1.word_count = 2 := by
    rw [finalize_eq c3State wHello 2]
    dsimp only
    rw [if_pos hcond1, hfl, transcribe_audio_wHello]
    rfl
  have hwc2 :
      (finalize (finalize c3State wHello 2).1 wHello 2).2.1.word_count = 3 := by
    rw [finalize_eq ((finalize c3State wHello 2).1) wHello 2]
    dsimp only
    rw [if_pos hcond2, hb1, hfl, transcribe_audio_wHello, hft1]
    rfl
  have hcalls : (finalize (finalize c3State wHello 2).1 wHello 2).2.2 =
      [(finalize c3State wHello 2).1.audio_buffer.flatten] := by
    rw [finalize_eq ((finalize c3State wHello 2).1) wHello 2]
    dsimp only
    rw [if_pos hcond2]
  refine ⟨hb1, ?_, hwc1, hwc2⟩
  rw [hcalls]
  simp

/-- **C8.**  On stop: any remaining buffered audio is recognised before the
result is produced (the final recognition call is part of `finalize` and its
fragment, when any, is included in the returned transcript); the returned
final transcript is the space-joined fragment texts, in a list order that is
also offset order (the fragment list stays sorted by offset); the returned
duration is `now` minus the session start; the returned word count is the
number of whitespace-separated tokens of the final transcript; and the
transport layer replies `session_ended` carrying exactly these values before
breaking out of the receive loop. -/
theorem C8_finalize_result (st : LiveState) (w : Whisper) (sid : String)
    (now : ℚ)
    (hsort : st.full_transcript.Sorted (fun f g => f.offset ≤ g.offset))
    (hnow : ∀ f ∈ st.full_transcript, f.offset ≤ now - st.start_time) :
    (finalize st w now).2.1.full_transcript =
      spaceJoin ((finalize st w now).1.full_transcript.map Fragment.text) ∧
    (finalize st w now).2.1.segments = (finalize st w now).1.full_transcript ∧
    (finalize st w now).2.1.duration = now - st.start_time ∧
    (finalize st w now).2.1.word_count =
      (pySplit (finalize st w now).2.1.full_transcript).length ∧
    (st.audio_buffer ≠ [] ∧ st.buffer_duration > 0 →
      (finalize st w now).2.2 = [st.audio_buffer.flatten]) ∧
    (¬ (st.audio_buffer ≠ [] ∧ st.buffer_duration > 0) →
      (finalize st w now).2.2 = [] ∧ (finalize st w now).1 = st) ∧
    ((finalize st w now).1.full_transcript).Sorted
      (fun f g => f.offset ≤ g.offset) ∧
    (∀ c : Conn, c.svc = some st →
      (handleEvent w sid c .stop now).1.outbox = c.outbox ++
        [OutMsg.session_ended sid c.meeting_id
          (finalize st w now).2.1.full_transcript
          (finalize st w now).2.1.duration
          (finalize st w now).2.1.word_count] ∧
      (handleEvent w sid c .stop now).2 = .brk) := by
  refine ⟨by rw [finalize_eq st w now], by rw [finalize_eq st w now],
    by rw [finalize_eq st w now], by rw [finalize_eq st w now],
    ?_, ?_, ?_, ?_⟩
  · intro h
    rw [finalize_eq st w now]
    dsimp only
    rw [if_pos h]
  · intro h
    rw [finalize_eq st w now]
    dsimp only
    rw [if_neg h, if_neg h]
    exact ⟨rfl, rfl⟩
  · rw [finalize_eq st w now]
    dsimp only
    by_cases hc : st.audio_buffer ≠ [] ∧ st.buffer_duration > 0
    · rw [if_pos hc]
      rcases transcribe_audio_transcript_cases st w now
          st.audio_buffer.flatten with h | ⟨t, h⟩
      · rw [h]; exact hsort
      · rw [h]
        refine List.pairwise_append.mpr ⟨hsort, List.pairwise_singleton _ _, ?_⟩
        intro a ha b hb
        simp only [List.mem_singleton] at hb
        rw [hb]
        exact hnow a ha
    · rw [if_neg hc]
      exact hsort
  · intro c hsvc
    have h4 : (pySplit (finalize st w now).2.1.full_transcript).length =
        (finalize st w now).2.1.word_count := by
      rw [finalize_eq st w now]
    constructor
    · dsimp only [handleEvent]
      rw [hsvc]
      dsimp only
      rw [h4]
    · dsimp only [handleEvent]
      rw [hsvc]

/-- Witness for C8 at a concrete input: the returned duration for the session
`c3State` stopped at time 2 is `2 - c3State.start_time`. -/
theorem C8_witness :
    (finalize c3State wHello 2).2.1.duration = 2 - c3State.start_time :=
  (C8_finalize_result c3State wHello "s" 2
    (List.sorted_singleton _)
    (by
      intro f hf
      simp only [c3State, initState, List.mem_singleton] at hf
      rw [hf]
      norm_num [c3State, initState])).2.2.1

theorem closedSeg_nil : closedSeg [] := fun _ => ⟨rfl, rfl⟩

theorem closedSeg_append {s t : List Action} (hs : closedSeg s)
    (ht : closedSeg t) : closedSeg (s ++ t) := by
  intro rest
  rw [List.append_assoc]
  exact ⟨((hs (t ++ rest)).1).trans (ht rest).1,
    ((hs (t ++ rest)).2).trans (ht rest).2⟩

theorem closedSeg_recv (ev : InEvent) : closedSeg [Action.recv ev] :=
  fun _ => ⟨rfl, rfl⟩

theorem closedSeg_sent (m : OutMsg) : closedSeg [Action.sent m] :=
  fun _ => ⟨rfl, rfl⟩

theorem closedSeg_rec (block : List ℚ) :
    closedSeg [Action.recStart block, Action.recEnd] :=
  fun _ => ⟨rfl, rfl⟩

theorem closedSeg_recActions (calls : List (List ℚ)) :
    closedSeg (recActions calls) := by
  induction calls with
  | nil => exact closedSeg_nil
  | cons b bs ih =>
    have : recActions (b :: bs) =
        [Action.recStart b, Action.recEnd] ++ recActions bs := by
      simp [recActions]
    rw [this]
    exact closedSeg_append (closedSeg_rec b) ih

theorem inlineAux_append (t : List Action) : ∀ (b : Bool) (s : List Action),
    inlineAwaitedAux b t = true →
    inlineAwaitedAux b (t ++ s) = inlineAwaitedAux false s := by
  induction t with
  | nil =>
    intro b s h
    cases b
    · rfl
    · simp [inlineAwaitedAux] at h
  | cons a t ih =>
    intro b s h
    cases a with
    | recv e =>
      cases b
      · exact ih false s h
      · simp [inlineAwaitedAux] at h
    | recStart bl =>
      cases b
      · exact ih true s h
      · simp [inlineAwaitedAux] at h
    | recEnd =>
      cases b
      · simp [inlineAwaitedAux] at h
      · exact ih false s h
    | sent m =>
      cases b
      · exact ih false s h
      · simp [inlineAwaitedAux] at h

theorem recv_of_inline (t : List Action) : ∀ b,
    inlineAwaitedAux b t = true → recvWhileRecAux b t = false := by
  induction t with
  | nil => intro b h; rfl
  | cons a t ih =>
    intro b h
    cases a with
    | recv e =>
      cases b
      · exact ih false h
      · simp [inlineAwaitedAux] at h
    | recStart bl =>
      cases b
      · exact ih true h
      · simp [inlineAwaitedAux] at h
    | recEnd =>
      cases b
      · simp [inlineAwaitedAux] at h
      · exact ih false h
    | sent m =>
      cases b
      · exact ih false h
      · simp [inlineAwaitedAux] at h

/-- Every iteration of the receive loop appends a closed trace segment: the
received event, zero or more immediately-completed recognition intervals, and
any sent messages. -/
theorem handleEvent_trace_closed (w : Whisper) (sid : String) (c : Conn)
    (ev : InEvent) (now : ℚ) :
    ∃ s, (handleEvent w sid c ev now).1.trace = c.trace ++ s ∧ closedSeg s := by
  cases ev with
  | start title lang parts =>
    refine ⟨[Action.recv (.start title lang parts)] ++
      [Action.sent (OutMsg.session_started sid c.next_id)], ?_,
      closedSeg_append (closedSeg_recv _) (closedSeg_sent _)⟩
    dsimp only [handleEvent]
    rw [List.append_assoc]
    rfl
  | audio data =>
    cases hsvc : c.svc with
    | none =>
      refine ⟨[Action.recv (.audio data)] ++ [Action.sent
        (OutMsg.errorMsg "Session not started. Send start first.")], ?_,
        closedSeg_append (closedSeg_recv _) (closedSeg_sent _)⟩
      dsimp only [handleEvent]
      rw [hsvc]
      dsimp only
      rw [List.append_assoc]
    | some st =>
      cases data with
      | none =>
        refine ⟨[Action.recv (.audio none)], ?_, closedSeg_recv _⟩
        dsimp only [handleEvent]
        rw [hsvc]
      | some s =>
        by_cases hs : s = ""
        · refine ⟨[Action.recv (.audio (some s))], ?_, closedSeg_recv _⟩
          dsimp only [handleEvent]
          rw [hsvc]
          dsimp only
          rw [if_pos hs]
        · rcases hr : (process_audio_chunk st w now s).2.1 with - | r
          · refine ⟨[Action.recv (.audio (some s))] ++
              recActions (process_audio_chunk st w now s).2.2, ?_, ?_⟩
            · dsimp only [handleEvent]
              rw [hsvc]
              dsimp only
              rw [if_neg hs, hr]
              dsimp only
              rw [List.append_assoc]
            · exact closedSeg_append (closedSeg_recv _) (closedSeg_recActions _)
          · refine ⟨[Action.recv (.audio (some s))] ++
              recActions (process_audio_chunk st w now s).2.2 ++
              [Action.sent (OutMsg.transcript r.text r.is_final r.timestamp
                r.confidence)], ?_, ?_⟩
            · dsimp only [handleEvent]
              rw [hsvc]
              dsimp only
              rw [if_neg hs, hr]
              dsimp only
              rw [List.append_assoc, List.append_assoc, List.append_assoc]
            · exact closedSeg_append (closedSeg_append (closedSeg_recv _)
                (closedSeg_recActions _)) (closedSeg_sent _)
  | stop =>
    cases hsvc : c.svc with
    | none =>
      refine ⟨[Action.recv .stop], ?_, closedSeg_recv _⟩
      dsimp only [handleEvent]
      rw [hsvc]
    | some st =>
      refine ⟨[Action.recv .stop] ++ recActions (finalize st w now).2.2 ++
        [Action.sent (OutMsg.session_ended sid c.meeting_id
          (finalize st w now).2.1.full_transcript (finalize st w now).2.1.duration
          ((pySplit (finalize st w now).2.1.full_transcript).length))], ?_, ?_⟩
      · dsimp only [handleEvent]
        rw [hsvc]
        dsimp only
        rw [List.append_assoc, List.append_assoc, List.append_assoc]
      · exact closedSeg_append (closedSeg_append (closedSeg_recv _)
          (closedSeg_recActions _)) (closedSeg_sent _)
  | ping =>
    refine ⟨[Action.recv .ping] ++ [Action.sent OutMsg.pong], ?_,
      closedSeg_append (closedSeg_recv _) (closedSeg_sent _)⟩
    dsimp only [handleEvent]
    rw [List.append_assoc]
  | other t =>
    refine ⟨[Action.recv (.other t)] ++ [Action.sent
      (OutMsg.errorMsg ("Unknown message type: " ++ t.getD "None"))], ?_,
      closedSeg_append (closedSeg_recv _) (closedSeg_sent _)⟩
    dsimp only [handleEvent]
    rw [List.append_assoc]
  | disconnect =>
    exact ⟨[Action.recv .disconnect], rfl, closedSeg_recv _⟩

theorem runEvents_inline (w : Whisper) (sid : String) :
    ∀ (events : List (InEvent × ℚ)) (c : Conn),
      inlineAwaited c.trace = true →
      inlineAwaited (runEvents w sid c events).trace = true := by
  intro events
  induction events with
  | nil => intro c h; exact h
  | cons e rest ih =>
    intro c h
    obtain ⟨ev, now⟩ := e
    obtain ⟨s, hs, hcl⟩ := handleEvent_trace_closed w sid c ev now
    have hseg : inlineAwaitedAux false s = true := by
      have := (hcl []).1
      rw [List.append_nil] at this
      rw [this]
      rfl
    have h1 : inlineAwaited (handleEvent w sid c ev now).1.trace = true := by
      unfold inlineAwaited at h ⊢
      rw [hs, inlineAux_append c.trace false s h, hseg]
    simp only [runEvents]
    rcases hh : handleEvent w sid c ev now with ⟨c1, ctl⟩
    rw [hh] at h1
    cases ctl
    · exact ih c1 h1
    · exact h1
    · exact h1

/-- One receive-loop iteration for an audio event that stays below the flush
threshold: the chunk is buffered, nothing is sent, and the loop continues. -/
theorem handleEvent_audio_buffering (w : Whisper) (sid : String) (c : Conn)
    (st : LiveState) (now : ℚ) (s : String) (chunk : List ℚ)
    (hsvc : c.svc = some st) (hs : ¬ s = "")
    (hdec : decodeAudio s = some chunk)
    (hlt : (bufferAppend st chunk).buffer_duration <
      (bufferAppend st chunk).min_buffer_duration) :
    handleEvent w sid c (.audio (some s)) now =
      ({ c with
         svc := some (bufferAppend st chunk),
         trace := c.trace ++ [Action.recv (.audio (some s))] }, .cont) := by
  dsimp only [handleEvent]
  rw [hsvc]
  dsimp only
  rw [if_neg hs, process_below st w now s chunk hdec hlt]
  dsimp only [recActions]
  simp

/-- One receive-loop iteration for an audio event that triggers a flush whose
recognition produces text: the block is recognised inline, the buffer is
cleared, and the transcript message is sent, all before the loop returns to
its receive point. -/
theorem handleEvent_audio_flush (w : Whisper) (sid : String) (c : Conn)
    (st : LiveState) (now : ℚ) (s : String) (chunk : List ℚ)
    (r : TranscriptOut)
    (hsvc : c.svc = some st) (hs : ¬ s = "")
    (hdec : decodeAudio s = some chunk)
    (hge : (bufferAppend st chunk).buffer_duration ≥
      (bufferAppend st chunk).min_buffer_duration)
    (hr : (transcribe_audio (bufferAppend st chunk) w now
      ((bufferAppend st chunk).audio_buffer.flatten)).2 = some r) :
    handleEvent w sid c (.audio (some s)) now =
      ({ c with
         svc := some { (transcribe_audio (bufferAppend st chunk) w now
             ((bufferAppend st chunk).audio_buffer.flatten)).1 with
           audio_buffer := [], buffer_duration := 0 },
         outbox := c.outbox ++ [OutMsg.transcript r.text r.is_final
           r.timestamp r.confidence],
         trace := c.trace ++ [Action.recv (.audio (some s)),
           Action.recStart ((bufferAppend st chunk).audio_buffer.flatten),
           Action.recEnd,
           Action.sent (OutMsg.transcript r.text r.is_final r.timestamp
             r.confidence)] }, .cont) := by
  dsimp only [handleEvent]
  rw [hsvc]
  dsimp only
  rw [if_neg hs, process_flush st w now s chunk hdec hge]
  dsimp only
  rw [hr]
  dsimp only [recActions]
  simp

/-- **C2 (amended).**  The per-session control loop is fully serialised:
recognition is awaited inline on the per-message path, so in every trace of
the handler each recognition interval is immediately closed
(`inlineAwaited`), and in particular the loop never receives — hence never
accepts or buffers — the next inbound audio event while a previous flush's
recognition call is still running (`recvWhileRec` is false).  Transcript
fragments are consequently appended and emitted in the order the flushes were
issued, because no two recognitions ever overlap. -/
theorem C2_inline_await (w : Whisper) (sid : String)
    (reg : List (String × RegEntry)) (db : List Meeting) (next_id : Nat)
    (events : List (InEvent × ℚ)) :
    inlineAwaited (runConn w sid reg db next_id events).trace = true ∧
    recvWhileRec (runConn w sid reg db next_id events).trace = false := by
  have h1 : inlineAwaited (runConn w sid reg db next_id events).trace = true :=
    runEvents_inline w sid events
      { svc := none, meeting_id := none, registry := reg, db := db,
        next_id := next_id, outbox := [OutMsg.connected sid],
        trace := [Action.sent (OutMsg.connected sid)] } rfl
  exact ⟨h1, recv_of_inline _ false h1⟩

/-- Counterexample to C2 as stated: a Recording session holding 2.9999 s of
audio receives two more chunks; the first triggers a flush.  The resulting
trace is receive, recognition start, recognition end, transcript sent,
receive — the second audio event is received only after the first flush's
recognition call has returned, and at no point is an event received while a
recognition is running, refuting the claimed off-the-control-path dispatch. -/
theorem C2_counterexample :
    ((runEvents wHello "s" c2Conn [(.audio (some "AAA="), 1),
        (.audio (some "AAA="), 2)]).trace.map tagOf) = [0, 1, 2, 3, 0] ∧
    recvWhileRec (runEvents wHello "s" c2Conn [(.audio (some "AAA="), 1),
        (.audio (some "AAA="), 2)]).trace = false := by
  have hge : (bufferAppend c2Svc [(0 : ℚ)]).buffer_duration ≥
      (bufferAppend c2Svc [(0 : ℚ)]).min_buffer_duration := by
    rw [bufferAppend_duration, bufferAppend_min]
    norm_num [c2Svc, initState]
  have hr2 : (transcribe_audio (bufferAppend c2Svc [(0 : ℚ)]) wHello 1
      ((bufferAppend c2Svc [(0 : ℚ)]).audio_buffer.flatten)).2 =
      some ⟨"hello", true, 1, 1⟩ := by
    rw [transcribe_audio_wHello]
  have h1 := handleEvent_audio_flush wHello "s" c2Conn c2Svc 1 "AAA=" [0]
    ⟨"hello", true, 1, 1⟩ rfl (by decide) decodeAudio_AAA hge hr2
  have hltX : (bufferAppend c2Flushed [(0 : ℚ)]).buffer_duration <
      (bufferAppend c2Flushed [(0 : ℚ)]).min_buffer_duration := by
    rw [bufferAppend_duration, bufferAppend_min]
    rw [show c2Flushed.buffer_duration = 0 from rfl,
      show c2Flushed.min_buffer_duration = 3 from
        ((transcribe_audio_fields (bufferAppend c2Svc [(0 : ℚ)]) wHello 1
          ((bufferAppend c2Svc [(0 : ℚ)]).audio_buffer.flatten)).2.2.1).trans
          rfl]
    norm_num
  constructor
  · simp only [runEvents]
    rw [h1]
    dsimp only
    rw [handleEvent_audio_buffering wHello "s" _ c2Flushed 2 "AAA=" [0] rfl
      (by decide) decodeAudio_AAA hltX]
    rfl
  · simp only [runEvents]
    rw [h1]
    dsimp only
    rw [handleEvent_audio_buffering wHello "s" _ c2Flushed 2 "AAA=" [0] rfl
      (by decide) decodeAudio_AAA hltX]
    rfl

/-- **C4 (amended).**  On an abnormal transport disconnect the handler does
NOT run the finalize path: the loop exits through the disconnect arm and only
the `finally` cleanup runs — the meeting table and outbox are untouched (no
transcript is persisted or sent), the service state with any buffered audio
is simply dropped (no recognition call is recorded in the trace), and the
only effect is the removal of the session's registry entry. -/
theorem C4_disconnect_amended (w : Whisper) (sid : String) (c : Conn)
    (t : ℚ) (rest : List (InEvent × ℚ)) :
    (runEvents w sid c ((InEvent.disconnect, t) :: rest)).db = c.db ∧
    (runEvents w sid c ((InEvent.disconnect, t) :: rest)).outbox = c.outbox ∧
    (runEvents w sid c ((InEvent.disconnect, t) :: rest)).svc = c.svc ∧
    (runEvents w sid c ((InEvent.disconnect, t) :: rest)).registry =
      regDel c.registry sid ∧
    (runEvents w sid c ((InEvent.disconnect, t) :: rest)).trace =
      c.trace ++ [Action.recv InEvent.disconnect] :=
  ⟨rfl, rfl, rfl, rfl, rfl⟩

/-- Counterexample to C4 as stated, on a concrete run: start, one buffered
2-byte chunk, then disconnect.  The meeting row is still PROCESSING with no
transcript (nothing was persisted), the trace contains no recognition start
(the remaining buffer was never flushed or recognised and still sits in the
dropped service state), yet the registry entry is gone. -/
theorem C4_counterexample :
    ((runConn wHello "s" [] [] 1 [(.start none none [], 0),
        (.audio (some "AAA="), 1), (.disconnect, 2)]).db.map
      Meeting.transcript = [none]) ∧
    ((runConn wHello "s" [] [] 1 [(.start none none [], 0),
        (.audio (some "AAA="), 1), (.disconnect, 2)]).db.map
      Meeting.status = [MeetingStatus.processing]) ∧
    (((runConn wHello "s" [] [] 1 [(.start none none [], 0),
        (.audio (some "AAA="), 1), (.disconnect, 2)]).trace.map tagOf).count 1
      = 0) ∧
    ((runConn wHello "s" [] [] 1 [(.start none none [], 0),
        (.audio (some "AAA="), 1), (.disconnect, 2)]).registry = []) ∧
    ((runConn wHello "s" [] [] 1 [(.start none none [], 0),
        (.audio (some "AAA="), 1), (.disconnect, 2)]).svc.map
      LiveState.audio_buffer = some [[0]]) := by
  have hlt : (bufferAppend (initState "s" "en" (some 1) 0)
      [(0 : ℚ)]).buffer_duration <
      (bufferAppend (initState "s" "en" (some 1) 0)
        [(0 : ℚ)]).min_buffer_duration := by
    rw [bufferAppend_duration, bufferAppend_min]
    norm_num [initState]
  have hrun : runConn wHello "s" [] [] 1 [(.start none none [], 0),
      (.audio (some "AAA="), 1), (.disconnect, 2)] =
      runEvents wHello "s"
        { svc := some (initState "s" "en" (some 1) 0), meeting_id := some 1,
          registry := [("s", { meeting_id := 1, start_time := 0 })],
          db := [{ id := 1, title := "Live Meeting", status := .processing,
                   participants := [], meeting_date := 0, transcript := none,
                   duration_seconds := none }],
          next_id := 2,
          outbox := [OutMsg.connected "s", OutMsg.session_started "s" 1],
          trace := [Action.sent (OutMsg.connected "s"),
            Action.recv (.start none none []),
            Action.sent (OutMsg.session_started "s" 1)] }
        [(.audio (some "AAA="), 1), (.disconnect, 2)] := rfl
  rw [hrun]
  simp only [runEvents]
  rw [handleEvent_audio_buffering wHello "s" _
    (initState "s" "en" (some 1) 0) 1 "AAA=" [0] rfl (by decide)
    decodeAudio_AAA hlt]
  exact ⟨rfl, rfl, rfl, rfl, rfl⟩

/-- **C6 (amended).**  Of the three out-of-order protocol situations, only an
audio event before start is answered with an explicit error message (and it
creates no registry or meeting entry and leaves the session state unchanged);
a stop before start is silently ignored — no reply of any kind and no state
change; and a start on an already-started session is not rejected at all: it
creates a second meeting row, replaces the session's service with a fresh one
(discarding the accumulated fragments), and replies `session_started` again. -/
theorem C6_protocol_amended (w : Whisper) (sid : String) (c : Conn) (now : ℚ) :
    (c.svc = none → ∀ data,
      (handleEvent w sid c (.audio data) now).1.svc = none ∧
      (handleEvent w sid c (.audio data) now).1.registry = c.registry ∧
      (handleEvent w sid c (.audio data) now).1.db = c.db ∧
      (handleEvent w sid c (.audio data) now).1.outbox = c.outbox ++
        [OutMsg.errorMsg "Session not started. Send start first."] ∧
      (handleEvent w sid c (.audio data) now).2 = .cont) ∧
    (c.svc = none →
      (handleEvent w sid c .stop now).1.outbox = c.outbox ∧
      (handleEvent w sid c .stop now).1.svc = none ∧
      (handleEvent w sid c .stop now).1.registry = c.registry ∧
      (handleEvent w sid c .stop now).1.db = c.db ∧
      (handleEvent w sid c .stop now).2 = .cont) ∧
    (∀ st, c.svc = some st → ∀ title lang parts,
      (handleEvent w sid c (.start title lang parts) now).1.svc =
        some (initState sid (lang.getD "en") (some c.next_id) now) ∧
      (handleEvent w sid c (.start title lang parts) now).1.db =
        c.db ++ [{ id := c.next_id, title := title.getD "Live Meeting",
                   status := .processing, participants := parts,
                   meeting_date := now, transcript := none,
                   duration_seconds := none }] ∧
      (handleEvent w sid c (.start title lang parts) now).1.outbox =
        c.outbox ++ [OutMsg.session_started sid c.next_id] ∧
      (handleEvent w sid c (.start title lang parts) now).2 = .cont) := by
  refine ⟨?_, ?_, ?_⟩
  · intro hsvc data
    dsimp only [handleEvent]
    rw [hsvc]
    exact ⟨rfl, rfl, rfl, rfl, rfl⟩
  · intro hsvc
    dsimp only [handleEvent]
    rw [hsvc]
    exact ⟨rfl, rfl, rfl, rfl, rfl⟩
  · intro st hsvc title lang parts
    dsimp only [handleEvent]
    exact ⟨rfl, rfl, rfl, rfl⟩

/-- Witness for C6 at concrete inputs: an audio event on a fresh connection
draws the explicit error, a stop on a fresh connection draws no reply at all,
and a start on the already-started connection `c2Conn` replaces the service
with a fresh one instead of being rejected. -/
theorem C6_witness :
    (handleEvent wHello "s" emptyConn (.audio (some "AAA=")) 0).1.outbox =
      emptyConn.outbox ++
        [OutMsg.errorMsg "Session not started. Send start first."] ∧
    (handleEvent wHello "s" emptyConn .stop 0).1.outbox = emptyConn.outbox ∧
    (handleEvent wHello "s" c2Conn (.start none none []) 5).1.svc =
      some (initState "s" "en" (some c2Conn.next_id) 5) :=
  ⟨((C6_protocol_amended wHello "s" emptyConn 0).1 rfl (some "AAA=")).2.2.2.1,
   ((C6_protocol_amended wHello "s" emptyConn 0).2.1 rfl).1,
   (((C6_protocol_amended wHello "s" c2Conn 5).2.2 c2Svc rfl) none none []).1⟩

/-- Counterexample to C6 as stated: a stop before start draws no reply at all
— after the run the outbox holds only the welcome message and no error
message, refuting the claim that every out-of-order event is answered with an
explicit protocol error. -/
theorem C6_counterexample :
    (runConn wHello "s" [] [] 1 [(InEvent.stop, 1)]).outbox =
      [OutMsg.connected "s"] := rfl

/-- Witness for C7 at a concrete input: a flush over a silent recogniser on
the connection `c2Conn` appends nothing, returns `none`, and leaves the
outbox unchanged. -/
theorem C7_witness :
    (process_audio_chunk c2Svc wEmpty 1 "AAA=").1.full_transcript =
      c2Svc.full_transcript ∧
    (process_audio_chunk c2Svc wEmpty 1 "AAA=").2.1 = none ∧
    (process_audio_chunk c2Svc wEmpty 1 "AAA=").1.audio_buffer = [] ∧
    (process_audio_chunk c2Svc wEmpty 1 "AAA=").1.buffer_duration = 0 ∧
    (process_audio_chunk c2Svc wEmpty 1 "AAA=").1.start_time = c2Svc.start_time ∧
    (handleEvent wEmpty "s" c2Conn (.audio (some "AAA=")) 1).1.outbox =
      c2Conn.outbox ∧
    (handleEvent wEmpty "s" c2Conn (.audio (some "AAA=")) 1).2 = .cont :=
  C7_silence_or_failure c2Conn c2Svc wEmpty "s" 1 "AAA=" [0] rfl
    (by simp) decodeAudio_AAA
    (by norm_num [bufferAppend, c2Svc, initState])
    (Or.inr ⟨"", rfl, rfl⟩)

end MeetingMind
